import Mathlib

/-!
# Verification of the Bright Smile Dental booking backend (`src/server.js`)

Shallow embedding of the appointment store and the HTTP handlers of
`src/server.js`: the slot generator (`generateTimeSlots`), the availability
query (`GET /api/slots/:date`), the booking transaction
(`POST /api/appointments`), the admin status update
(`PATCH /api/admin/appointments/:id`), the admin delete
(`DELETE /api/admin/appointments/:id`) and the patient roster
(`GET /api/admin/patients`).

The PostgreSQL `appointments` table is modelled as a list of rows together
with the next value of the `SERIAL` id sequence.  SQL queries over it are
translated row by row (filters, aggregates, `GROUP BY`, `ORDER BY`).
-/

namespace BrightSmile

/-- A row of the `appointments` table (`initDatabase` in `src/server.js`).
`created_at` plays no role in any handler and is omitted. -/
structure Appointment where
  id : Nat
  firstName : String
  lastName : String
  email : String
  phone : String
  service : String
  date : String
  time : String
  notes : String
  status : String
deriving Repr, DecidableEq

/-- The `appointments` table plus the state of its `SERIAL` id sequence
(which starts at 1 and is bumped on every insert). -/
structure Store where
  rows : List Appointment
  nextId : Nat
deriving Repr, DecidableEq

/-- The empty store right after `initDatabase` ran. -/
def Store.init : Store := ⟨[], 1⟩

/-- Body of `POST /api/appointments`.  Each field of `req.body` may be
absent (`none`); JavaScript also treats an empty string as falsy, which the
presence check below reflects. -/
structure BookingRequest where
  firstName : Option String
  lastName : Option String
  email : Option String
  phone : Option String
  service : Option String
  date : Option String
  time : Option String
  notes : Option String
deriving Repr, DecidableEq

/-- JavaScript truthiness of an optional string field: present and not
the empty string (`!firstName || ...` in the handler). -/
def fieldPresent : Option String → Bool
  | none => false
  | some s => s ≠ ""

/-- `SELECT id FROM appointments WHERE date = $1 AND time = $2 AND
status != 'cancelled'` returned at least one row. -/
def hasConflict (rows : List Appointment) (date time : String) : Bool :=
  rows.any fun a => a.date == date && a.time == time && a.status != "cancelled"

/-- Outcome of `POST /api/appointments`. -/
inductive BookResult where
  | validationError                    -- 400 "All required fields must be filled"
  | conflictError                      -- 409 "This time slot is no longer available"
  | created (appointmentId : Nat)      -- 201 { success: true, appointmentId }
deriving Repr, DecidableEq

/-- The row the `INSERT INTO appointments ...` statement adds: the request
fields, `notes || ''`, the fresh serial id and the `'confirmed'` column
default. -/
def insertedRow (s : Store) (r : BookingRequest) : Appointment :=
  { id := s.nextId
    firstName := r.firstName.getD ""
    lastName := r.lastName.getD ""
    email := r.email.getD ""
    phone := r.phone.getD ""
    service := r.service.getD ""
    date := r.date.getD ""
    time := r.time.getD ""
    notes := r.notes.getD ""
    status := "confirmed" }

/-- `POST /api/appointments`: validate presence of the seven required
fields, check for a non-cancelled appointment at the exact `(date, time)`,
and otherwise insert `insertedRow`. -/
def bookAppointment (s : Store) (r : BookingRequest) : BookResult × Store :=
  if !(fieldPresent r.firstName && fieldPresent r.lastName && fieldPresent r.email &&
      fieldPresent r.phone && fieldPresent r.service && fieldPresent r.date &&
      fieldPresent r.time) then
    (.validationError, s)
  else if hasConflict s.rows (r.date.getD "") (r.time.getD "") then
    (.conflictError, s)
  else
    (.created s.nextId, ⟨insertedRow s r :: s.rows, s.nextId + 1⟩)

/-- `validStatuses` in the `PATCH /api/admin/appointments/:id` handler. -/
def validStatuses : List String := ["confirmed", "completed", "cancelled", "no-show"]

/-- Outcome of `PATCH /api/admin/appointments/:id` (for an authenticated
admin). -/
inductive PatchResult where
  | invalidStatus                       -- 400 "Invalid status"
  | success                             -- { success: true, message: 'Appointment updated' }
deriving Repr, DecidableEq

/-- `PATCH /api/admin/appointments/:id`: reject a status outside the
enumeration, otherwise `UPDATE appointments SET status = $1 WHERE id = $2`
(zero rows affected is still a success). -/
def updateStatus (s : Store) (id : Nat) (status : String) : PatchResult × Store :=
  if validStatuses.contains status then
    (.success, ⟨s.rows.map fun a => if a.id == id then { a with status := status } else a,
                s.nextId⟩)
  else
    (.invalidStatus, s)

/-- `DELETE /api/admin/appointments/:id`: `DELETE FROM appointments WHERE
id = $1`; always answers `{ success: true }`. -/
def deleteAppointment (s : Store) (id : Nat) : Store :=
  ⟨s.rows.filter (fun a => a.id != id), s.nextId⟩

/-- States of the appointment store reachable from the freshly initialised
database by the public operations: booking, admin status update and admin
delete. -/
inductive Reachable : Store → Prop
  | init : Reachable Store.init
  | book (s : Store) (r : BookingRequest) : Reachable s → Reachable (bookAppointment s r).2
  | patch (s : Store) (id : Nat) (st : String) :
      Reachable s → Reachable (updateStatus s id st).2
  | del (s : Store) (id : Nat) : Reachable s → Reachable (deleteAppointment s id)

/-- `CLINIC_CONFIG` in `src/server.js`. -/
structure ClinicConfig where
  openTime : Nat
  closeTime : Nat
  slotDuration : Nat
  workDays : List Nat
deriving Repr, DecidableEq

/-- `const CLINIC_CONFIG = { openTime: 9, closeTime: 17, slotDuration: 30,
workDays: [1,2,3,4,5,6] }`. -/
def CLINIC_CONFIG : ClinicConfig :=
  { openTime := 9, closeTime := 17, slotDuration := 30, workDays := [1, 2, 3, 4, 5, 6] }

/-- `n.toString().padStart(2, '0')` for the hour and minute components. -/
def pad2 (n : Nat) : String :=
  if n < 10 then "0" ++ toString n else toString n

/-- Decimal value of a run of digit characters. -/
def digitsToNat (cs : List Char) : Nat :=
  cs.foldl (fun n c => n * 10 + (c.toNat - '0'.toNat)) 0

/-- Parse a `YYYY-MM-DD` string into `(year, month, day)`; models the
calendar information `new Date(date)` extracts from such a string. -/
def parseDateYMD (s : String) : Nat × Nat × Nat :=
  (digitsToNat (s.take 4).toList,
   digitsToNat ((s.drop 5).take 2).toList,
   digitsToNat ((s.drop 8).take 2).toList)

/-- Sakamoto's table of month offsets for the day-of-week computation. -/
def monthOffset : List Nat := [0, 3, 2, 5, 0, 3, 5, 1, 4, 6, 2, 4]

/-- Day of week (0 = Sunday .. 6 = Saturday) of a Gregorian calendar date,
by Sakamoto's method; models `new Date(date).getDay()` for a `YYYY-MM-DD`
string (which `Date` parses as that calendar date at UTC midnight). -/
def dayOfWeek (ymd : Nat × Nat × Nat) : Nat :=
  let y := if ymd.2.1 < 3 then ymd.1 - 1 else ymd.1
  (y + y / 4 - y / 100 + y / 400 + monthOffset.getD (ymd.2.1 - 1) 0 + ymd.2.2) % 7

/-- The minute values visited by `for (let min = 0; min < 60; min +=
CLINIC_CONFIG.slotDuration)`: the multiples of `dur` below 60 (the loop
requires `dur > 0` to terminate; the clinic's value is 30). -/
def minuteStarts (dur : Nat) : List Nat :=
  (List.range ((60 + dur - 1) / dur)).map fun i => i * dur

/-- `generateTimeSlots(date)`: empty when the date's day of week is not a
work day, otherwise every `HH:MM` string from `openTime` up to but
excluding `closeTime` in `slotDuration`-minute steps. -/
def generateTimeSlots (cfg : ClinicConfig) (date : String) : List String :=
  if cfg.workDays.contains (dayOfWeek (parseDateYMD date)) then
    ((List.range' cfg.openTime (cfg.closeTime - cfg.openTime)).map fun hour =>
      (minuteStarts cfg.slotDuration).map fun min => pad2 hour ++ ":" ++ pad2 min).flatten
  else
    []

/-- Minutes since midnight encoded by an `HH:MM` slot string. -/
def slotMinutes (s : String) : Nat :=
  digitsToNat (s.take 2).toList * 60 + digitsToNat (s.drop 3).toList

/-- The regex `^\d{4}-\d{2}-\d{2}$` of the `GET /api/slots/:date` handler. -/
def validDateFormat (s : String) : Bool :=
  match s.toList with
  | [y1, y2, y3, y4, h1, m1, m2, h2, d1, d2] =>
      y1.isDigit && y2.isDigit && y3.isDigit && y4.isDigit && h1 == '-' &&
      m1.isDigit && m2.isDigit && h2 == '-' && d1.isDigit && d2.isDigit
  | _ => false

/-- Calendar-date comparison: `new Date(date) < today` with both sides
taken at day granularity (the server compares the two midnights). -/
def dateLt (a b : Nat × Nat × Nat) : Bool :=
  a.1 < b.1 || (a.1 == b.1 && (a.2.1 < b.2.1 || (a.2.1 == b.2.1 && a.2.2 < b.2.2)))

/-- `SELECT time FROM appointments WHERE date = $1 AND status !=
'cancelled'`, projected to the `time` column. -/
def bookedTimesOf (rows : List Appointment) (date : String) : List String :=
  (rows.filter fun a => a.date == date && a.status != "cancelled").map fun a => a.time

/-- Outcome of `GET /api/slots/:date`. -/
inductive SlotsResult where
  | invalidFormat                       -- 400 "Invalid date format"
  | pastDate                            -- 400 "Cannot book in the past"
  | ok (allSlots bookedSlots availableSlots : List String)
deriving Repr, DecidableEq

/-- `GET /api/slots/:date` with `today` the current calendar date: format
check, past-date check, then `allSlots`, the booked times as read from the
store, and `availableSlots = allSlots.filter(s => !bookedTimes.includes(s))`. -/
def getSlots (today : Nat × Nat × Nat) (rows : List Appointment) (date : String) :
    SlotsResult :=
  if !validDateFormat date then
    .invalidFormat
  else if dateLt (parseDateYMD date) today then
    .pastDate
  else
    let allSlots := generateTimeSlots CLINIC_CONFIG date
    let bookedTimes := bookedTimesOf rows date
    .ok allSlots bookedTimes (allSlots.filter fun s => !bookedTimes.contains s)

/-- One row of the `GET /api/admin/patients` response. -/
structure PatientSummary where
  email : String
  firstName : String
  lastName : String
  phone : String
  totalAppointments : Nat
  lastVisit : String
deriving Repr, DecidableEq

/-- The `GROUP BY email, first_name, last_name, phone` key of the patients
query. -/
def rowKey (a : Appointment) : String × String × String × String :=
  (a.email, a.firstName, a.lastName, a.phone)

/-- Key of a summary row, for relating the output to the grouping. -/
def sumKey (p : PatientSummary) : String × String × String × String :=
  (p.email, p.firstName, p.lastName, p.phone)

/-- Byte-wise comparison of two character lists: the `TEXT` ordering the
database applies to `MAX(date)` and `ORDER BY last_visit` on `YYYY-MM-DD`
strings. -/
def charListLe : List Char → List Char → Bool
  | [], _ => true
  | _ :: _, [] => false
  | a :: as, b :: bs =>
      if a.toNat < b.toNat then true
      else if b.toNat < a.toNat then false
      else charListLe as bs

/-- `TEXT` ordering on strings. -/
def strLe (a b : String) : Bool :=
  charListLe a.toList b.toList

/-- `MAX(date)` over a group of rows (groups are never empty, so the `""`
seed is inert for `YYYY-MM-DD` data). -/
def maxDateOf (rows : List Appointment) : String :=
  rows.foldl (fun m a => if strLe m a.date then a.date else m) ""


/-- The aggregate row the query produces for one grouping key. -/
def summaryFor (rows : List Appointment) (k : String × String × String × String) :
    PatientSummary :=
  let g := rows.filter fun a => rowKey a == k
  { email := k.1, firstName := k.2.1, lastName := k.2.2.1, phone := k.2.2.2,
    totalAppointments := g.length, lastVisit := maxDateOf g }

/-- `ORDER BY last_visit DESC` on the text column. -/
def byLastVisitDesc (p q : PatientSummary) : Prop :=
  strLe q.lastVisit p.lastVisit = true

instance : DecidableRel byLastVisitDesc := fun p q =>
  inferInstanceAs (Decidable (strLe q.lastVisit p.lastVisit = true))

/-- `GET /api/admin/patients` without a search filter: `SELECT email,
first_name, last_name, phone, COUNT(*), MAX(date) FROM appointments GROUP
BY email, first_name, last_name, phone ORDER BY last_visit DESC`. -/
def patientsQuery (rows : List Appointment) : List PatientSummary :=
  (((rows.map rowKey).dedup).map (summaryFor rows)).insertionSort byLastVisitDesc

/-- Shape test for a five-character `HH:MM` string. -/
def timeShape (s : String) : Bool :=
  match s.toList with
  | [h1, h2, c, m1, m2] => h1.isDigit && h2.isDigit && c == ':' && m1.isDigit && m2.isDigit
  | _ => false

/-- Modelled from the spec: the data-model constraint that a stored `time`
is an `HH:MM` 24-hour string aligned to the clinic's slot duration (the
code contains no such check; this predicate renders the spec's words so the
claim can be compared with the code's behaviour). -/
def specAlignedTime (cfg : ClinicConfig) (s : String) : Prop :=
  timeShape s = true ∧
  slotMinutes s % cfg.slotDuration = 0 ∧
  digitsToNat (s.take 2).toList < 24 ∧ digitsToNat (s.drop 3).toList < 60

instance (cfg : ClinicConfig) (s : String) : Decidable (specAlignedTime cfg s) :=
  decidable_of_iff
    (timeShape s = true ∧ slotMinutes s % cfg.slotDuration = 0 ∧
      digitsToNat (s.take 2).toList < 24 ∧ digitsToNat (s.drop 3).toList < 60)
    Iff.rfl

/-- Number of non-cancelled appointments at a given `(date, time)` pair. -/
def countAt (rows : List Appointment) (date time : String) : Nat :=
  (rows.filter fun a => a.date == date && a.time == time && a.status != "cancelled").length

/-- The spec's consistency invariant: at most one non-cancelled appointment
per `(date, time)` pair. -/
def slotInvariant (rows : List Appointment) : Prop :=
  ∀ date time : String, countAt rows date time ≤ 1

/-- States reachable when no status update revives a cancelled appointment:
every `PATCH` either sets `'cancelled'` or touches only rows that are not
currently cancelled. -/
inductive SafeReachable : Store → Prop
  | init : SafeReachable Store.init
  | book (s : Store) (r : BookingRequest) :
      SafeReachable s → SafeReachable (bookAppointment s r).2
  | patch (s : Store) (id : Nat) (st : String) :
      SafeReachable s →
      (st = "cancelled" ∨ ∀ a ∈ s.rows, a.id = id → a.status ≠ "cancelled") →
      SafeReachable (updateStatus s id st).2
  | del (s : Store) (id : Nat) : SafeReachable s → SafeReachable (deleteAppointment s id)

/-- A complete booking request for the `09:00` slot on Monday 2024-01-01. -/
def reqA : BookingRequest :=
  ⟨some "Ann", some "Ames", some "ann@example.com", some "555-0001",
   some "Cleaning", some "2024-01-01", some "09:00", none⟩

/-- A second complete booking request for the same `(date, time)` slot. -/
def reqB : BookingRequest :=
  ⟨some "Bob", some "Best", some "bob@example.com", some "555-0002",
   some "Exam", some "2024-01-01", some "09:00", none⟩

/-- A booking request whose `phone` field is absent. -/
def reqNoPhone : BookingRequest :=
  ⟨some "Cal", some "Cole", some "cal@example.com", none,
   some "Exam", some "2024-01-01", some "10:00", none⟩

/-- A complete booking request whose `time` is not an `HH:MM` clinic slot. -/
def reqBadTime : BookingRequest :=
  ⟨some "Dee", some "Dale", some "dee@example.com", some "555-0004",
   some "Exam", some "2024-01-01", some "99:99", none⟩

/-- Book `reqA`, cancel it, book `reqB` into the freed slot, then un-cancel
the first appointment by `PATCH`ing its status back to `'confirmed'`. -/
def doubleBookedStore : Store :=
  (updateStatus
    (bookAppointment
      (updateStatus (bookAppointment Store.init reqA).2 1 "cancelled").2
      reqB).2
    1 "confirmed").2

/-- Two confirmed appointments of the same patient e-mail recorded with two
different phone numbers. -/
def apptP1 : Appointment :=
  ⟨1, "Ann", "Ames", "ann@example.com", "555-0001", "Cleaning",
   "2024-01-01", "09:00", "", "confirmed"⟩

/-- Second appointment sharing `apptP1`'s e-mail but not its phone. -/
def apptP2 : Appointment :=
  ⟨2, "Ann", "Ames", "ann@example.com", "555-0099", "Exam",
   "2024-02-01", "10:00", "", "confirmed"⟩

/-- An appointment booked at `08:15`, a time outside the generated grid. -/
def apptOffGrid : Appointment :=
  ⟨1, "Eve", "East", "eve@example.com", "555-0005", "Exam",
   "2024-01-01", "08:15", "", "confirmed"⟩

/-- The 16 slots the generator produces on any in-schedule date. -/
def mondayGrid : List String :=
  ["09:00", "09:30", "10:00", "10:30", "11:00", "11:30", "12:00", "12:30",
   "13:00", "13:30", "14:00", "14:30", "15:00", "15:30", "16:00", "16:30"]

/-! ## Helper lemmas -/

/-- `hasConflict` in propositional form. -/
theorem hasConflict_iff (rows : List Appointment) (d t : String) :
    hasConflict rows d t = true ↔
      ∃ a ∈ rows, a.date = d ∧ a.time = t ∧ a.status ≠ "cancelled" := by
  simp [hasConflict, List.any_eq_true, and_assoc]

/-- A map that can only shrink the filtered set does not increase the
filtered length. -/
theorem length_filter_map_le {α : Type} (f : α → α) (p : α → Bool) :
    ∀ l : List α, (∀ a ∈ l, p (f a) = true → p a = true) →
      ((l.map f).filter p).length ≤ (l.filter p).length := by
  intro l
  induction l with
  | nil => simp
  | cons a l ih =>
    intro h
    have ha := h a (by simp)
    have ih2 := ih fun b hb => h b (by simp [hb])
    by_cases hfa : p (f a) = true
    · simp [List.filter_cons, hfa, ha hfa]
      omega
    · simp at hfa
      simp [List.filter_cons, hfa]
      cases hpa : p a <;> simp <;> omega

/-- `countAt` of a consed row that is counted at `(d, t)`. -/
theorem countAt_cons_pos (a : Appointment) (rows : List Appointment) (d t : String)
    (h : (a.date == d && a.time == t && a.status != "cancelled") = true) :
    countAt (a :: rows) d t = countAt rows d t + 1 := by
  simp [countAt, List.filter_cons, h]

/-- `countAt` of a consed row that is not counted at `(d, t)`. -/
theorem countAt_cons_neg (a : Appointment) (rows : List Appointment) (d t : String)
    (h : (a.date == d && a.time == t && a.status != "cancelled") = false) :
    countAt (a :: rows) d t = countAt rows d t := by
  simp [countAt, List.filter_cons, h]

/-- No conflict at `(d, t)` means no non-cancelled row is counted there. -/
theorem countAt_eq_zero_of_not_conflict (rows : List Appointment) (d t : String)
    (h : hasConflict rows d t = false) : countAt rows d t = 0 := by
  rw [countAt, List.length_eq_zero, List.filter_eq_nil_iff]
  intro a ha hp
  have h2 : hasConflict rows d t = true := by
    rw [hasConflict]
    rw [List.any_eq_true]
    exact ⟨a, ha, hp⟩
  rw [h] at h2
  exact Bool.false_ne_true h2

/-- A booking either leaves the rows unchanged or prepends the inserted
row, and it only inserts when the slot was free. -/
theorem bookAppointment_rows_cases (s : Store) (r : BookingRequest) :
    (bookAppointment s r).2.rows = s.rows ∨
    ((bookAppointment s r).2.rows = insertedRow s r :: s.rows ∧
      hasConflict s.rows (r.date.getD "") (r.time.getD "") = false) := by
  unfold bookAppointment
  split
  · exact Or.inl rfl
  · split
    · exact Or.inl rfl
    · next hconf => exact Or.inr ⟨rfl, by simpa using hconf⟩

/-- A status update either leaves the rows unchanged or maps the update
over them. -/
theorem updateStatus_rows_cases (s : Store) (i : Nat) (st : String) :
    (updateStatus s i st).2.rows = s.rows ∨
    (updateStatus s i st).2.rows =
      s.rows.map fun a => if a.id == i then { a with status := st } else a := by
  unfold updateStatus
  split
  · exact Or.inr rfl
  · exact Or.inl rfl

/-- Totality of the byte-wise text order. -/
theorem charListLe_total : ∀ as bs : List Char,
    charListLe as bs = true ∨ charListLe bs as = true
  | [], _ => Or.inl rfl
  | _ :: _, [] => Or.inr rfl
  | a :: as, b :: bs => by
      by_cases h1 : a.toNat < b.toNat
      · left
        simp [charListLe, h1]
      · by_cases h2 : b.toNat < a.toNat
        · right
          simp [charListLe, h2]
        · rcases charListLe_total as bs with h | h
          · left
            simp [charListLe, h1, h2, h]
          · right
            simp [charListLe, h1, h2, h]

/-- Transitivity of the byte-wise text order. -/
theorem charListLe_trans : ∀ as bs cs : List Char,
    charListLe as bs = true → charListLe bs cs = true → charListLe as cs = true
  | [], _, _ => fun _ _ => rfl
  | _ :: _, [], _ => fun h _ => by simp [charListLe] at h
  | _ :: _, _ :: _, [] => fun _ h => by simp [charListLe] at h
  | a :: as, b :: bs, c :: cs => fun h1 h2 => by
      have e1 : a.toNat < b.toNat ∨ (a.toNat = b.toNat ∧ charListLe as bs = true) := by
        by_cases hab : a.toNat < b.toNat
        · exact Or.inl hab
        · by_cases hba : b.toNat < a.toNat
          · simp [charListLe, hab, hba] at h1
          · refine Or.inr ⟨by omega, ?_⟩
            simpa [charListLe, hab, hba] using h1
      have e2 : b.toNat < c.toNat ∨ (b.toNat = c.toNat ∧ charListLe bs cs = true) := by
        by_cases hbc : b.toNat < c.toNat
        · exact Or.inl hbc
        · by_cases hcb : c.toNat < b.toNat
          · simp [charListLe, hbc, hcb] at h2
          · refine Or.inr ⟨by omega, ?_⟩
            simpa [charListLe, hbc, hcb] using h2
      rcases e1 with hab | ⟨hab, hrec1⟩ <;> rcases e2 with hbc | ⟨hbc, hrec2⟩
      · simp [charListLe, show a.toNat < c.toNat by omega]
      · simp [charListLe, show a.toNat < c.toNat by omega]
      · simp [charListLe, show a.toNat < c.toNat by omega]
      · have hac : ¬a.toNat < c.toNat := by omega
        have hca : ¬c.toNat < a.toNat := by omega
        simp [charListLe, hac, hca]
        exact charListLe_trans as bs cs hrec1 hrec2

/-! ## Theorems for the claims -/

/-- C7: a booking request with any required field missing is rejected with
a 400 `ValidationError` and the store is unchanged. -/
theorem booking_missing_field_rejected (s : Store) (r : BookingRequest)
    (h : fieldPresent r.firstName = false ∨ fieldPresent r.lastName = false ∨
         fieldPresent r.email = false ∨ fieldPresent r.phone = false ∨
         fieldPresent r.service = false ∨ fieldPresent r.date = false ∨
         fieldPresent r.time = false) :
    bookAppointment s r = (.validationError, s) := by
  unfold bookAppointment
  rcases h with h | h | h | h | h | h | h <;> simp [h]

/-- Witness for C7: the request missing its `phone` is rejected and the
empty store stays empty. -/
theorem booking_missing_field_rejected_witness :
    bookAppointment Store.init reqNoPhone = (.validationError, Store.init) :=
  booking_missing_field_rejected Store.init reqNoPhone (by decide)

/-- C9: a date whose day of week is not a work day yields no slots. -/
theorem slots_empty_off_schedule (cfg : ClinicConfig) (date : String)
    (h : cfg.workDays.contains (dayOfWeek (parseDateYMD date)) = false) :
    generateTimeSlots cfg date = [] := by
  unfold generateTimeSlots
  simp only [h, Bool.false_eq_true, if_false]

/-- Witness for C9: Sunday 2024-01-07 is outside `workDays = [1..6]`, so
the generator returns the empty sequence. -/
theorem slots_empty_off_schedule_witness :
    generateTimeSlots CLINIC_CONFIG "2024-01-07" = [] :=
  slots_empty_off_schedule CLINIC_CONFIG "2024-01-07" (by decide)

/-- C3: on an in-schedule date the generator yields
`(closeTime-openTime)*60/slotDuration = 16` slots, strictly increasing,
each exactly `slotDuration = 30` minutes after the previous, from `09:00`
to `16:30`. -/
theorem slot_generator_in_schedule (date : String)
    (h : CLINIC_CONFIG.workDays.contains (dayOfWeek (parseDateYMD date)) = true) :
    (generateTimeSlots CLINIC_CONFIG date).length =
        (CLINIC_CONFIG.closeTime - CLINIC_CONFIG.openTime) * 60 /
          CLINIC_CONFIG.slotDuration ∧
    (generateTimeSlots CLINIC_CONFIG date).length = 16 ∧
    (generateTimeSlots CLINIC_CONFIG date).Chain'
      (fun a b => slotMinutes a < slotMinutes b ∧
        slotMinutes b = slotMinutes a + CLINIC_CONFIG.slotDuration) ∧
    (generateTimeSlots CLINIC_CONFIG date).head? = some "09:00" ∧
    (generateTimeSlots CLINIC_CONFIG date).getLast? = some "16:30" := by
  have hg : generateTimeSlots CLINIC_CONFIG date =
      ["09:00", "09:30", "10:00", "10:30", "11:00", "11:30", "12:00", "12:30",
       "13:00", "13:30", "14:00", "14:30", "15:00", "15:30", "16:00", "16:30"] := by
    simp only [generateTimeSlots, h, if_true]
    decide
  rw [hg]
  refine ⟨by decide, by decide, ?_, by decide, by decide⟩
  simp only [List.chain'_cons, List.chain'_singleton]
  decide

/-- Witness for C3: Monday 2024-01-01 is in schedule. -/
theorem slot_generator_in_schedule_witness :
    (generateTimeSlots CLINIC_CONFIG "2024-01-01").length =
        (CLINIC_CONFIG.closeTime - CLINIC_CONFIG.openTime) * 60 /
          CLINIC_CONFIG.slotDuration ∧
    (generateTimeSlots CLINIC_CONFIG "2024-01-01").length = 16 ∧
    (generateTimeSlots CLINIC_CONFIG "2024-01-01").Chain'
      (fun a b => slotMinutes a < slotMinutes b ∧
        slotMinutes b = slotMinutes a + CLINIC_CONFIG.slotDuration) ∧
    (generateTimeSlots CLINIC_CONFIG "2024-01-01").head? = some "09:00" ∧
    (generateTimeSlots CLINIC_CONFIG "2024-01-01").getLast? = some "16:30" :=
  slot_generator_in_schedule "2024-01-01" (by decide)

/-- C10: `PATCH` with a valid status and `DELETE` on an id absent from the
store both report success and leave the store unchanged. -/
theorem admin_missing_id_succeeds (s : Store) (i : Nat) (st : String)
    (hst : validStatuses.contains st = true)
    (hid : ∀ a ∈ s.rows, a.id ≠ i) :
    updateStatus s i st = (.success, s) ∧ deleteAppointment s i = s := by
  obtain ⟨rows, nid⟩ := s
  constructor
  · simp only [updateStatus, hst, if_true, Prod.mk.injEq, Store.mk.injEq, and_true, true_and]
    have hmap : rows.map (fun a => if a.id == i then { a with status := st } else a) =
        rows.map (fun a => a) := by
      apply List.map_congr_left
      intro a ha
      have hne : (a.id == i) = false := by
        simpa using hid a ha
      simp [hne]
    rw [hmap]
    simp
  · simp only [deleteAppointment, Store.mk.injEq, and_true]
    apply List.filter_eq_self.mpr
    intro a ha
    simpa using hid a ha

/-- C2: with all required fields present, a booking against an occupied
`(date, time)` answers 409 without inserting; against a free slot it
answers 201, an identical second booking then answers 409 leaving the store
as it was, and after the new appointment's status is patched to
`'cancelled'` the same slot books again. -/
theorem booking_conflict_semantics (s : Store) (r : BookingRequest)
    (hv : (fieldPresent r.firstName && fieldPresent r.lastName && fieldPresent r.email &&
           fieldPresent r.phone && fieldPresent r.service && fieldPresent r.date &&
           fieldPresent r.time) = true)
    (hfresh : ∀ a ∈ s.rows, a.id ≠ s.nextId) :
    (hasConflict s.rows (r.date.getD "") (r.time.getD "") = true →
      bookAppointment s r = (.conflictError, s)) ∧
    (hasConflict s.rows (r.date.getD "") (r.time.getD "") = false →
      (bookAppointment s r).1 = .created s.nextId ∧
      (bookAppointment (bookAppointment s r).2 r).1 = .conflictError ∧
      (bookAppointment (bookAppointment s r).2 r).2 = (bookAppointment s r).2 ∧
      ∃ j, (bookAppointment
              (updateStatus (bookAppointment s r).2 s.nextId "cancelled").2 r).1 =
            .created j) := by
  have hcond : (!(fieldPresent r.firstName && fieldPresent r.lastName &&
      fieldPresent r.email && fieldPresent r.phone && fieldPresent r.service &&
      fieldPresent r.date && fieldPresent r.time)) = false := by
    rw [hv]
    rfl
  constructor
  · intro hc
    simp [bookAppointment, hcond, hc]
  · intro hnc
    have h1 : bookAppointment s r =
        (.created s.nextId, ⟨insertedRow s r :: s.rows, s.nextId + 1⟩) := by
      simp [bookAppointment, hcond, hnc]
    have hconf2 : hasConflict (insertedRow s r :: s.rows)
        (r.date.getD "") (r.time.getD "") = true := by
      rw [hasConflict_iff]
      exact ⟨insertedRow s r, by simp, rfl, rfl, by simp [insertedRow]⟩
    refine ⟨by rw [h1], ?_, ?_, ?_⟩
    · rw [h1]
      simp [bookAppointment, hcond, hconf2]
    · rw [h1]
      simp [bookAppointment, hcond, hconf2]
    · have hval : validStatuses.contains "cancelled" = true := by decide
      have h2 : (updateStatus ⟨insertedRow s r :: s.rows, s.nextId + 1⟩
          s.nextId "cancelled").2.rows =
            { insertedRow s r with status := "cancelled" } :: s.rows := by
        simp only [updateStatus, hval, if_true, List.map_cons]
        have hhead : ((insertedRow s r).id == s.nextId) = true := by
          simp [insertedRow]
        rw [hhead]
        simp only [if_true]
        have hmap : s.rows.map
            (fun a => if a.id == s.nextId then { a with status := "cancelled" } else a) =
            s.rows.map (fun a => a) := by
          apply List.map_congr_left
          intro a ha
          have hne : (a.id == s.nextId) = false := by
            simpa using hfresh a ha
          simp [hne]
        rw [hmap]
        simp
      have hnc2 : hasConflict
          ({ insertedRow s r with status := "cancelled" } :: s.rows)
          (r.date.getD "") (r.time.getD "") = false := by
        rw [Bool.eq_false_iff]
        intro habs
        rw [hasConflict_iff] at habs
        obtain ⟨a, ha, hd, ht, hs⟩ := habs
        rcases List.mem_cons.mp ha with rfl | hmem
        · exact hs rfl
        · have : hasConflict s.rows (r.date.getD "") (r.time.getD "") = true :=
            (hasConflict_iff _ _ _).mpr ⟨a, hmem, hd, ht, hs⟩
          rw [hnc] at this
          exact Bool.false_ne_true this
      rw [h1]
      refine ⟨(updateStatus ⟨insertedRow s r :: s.rows, s.nextId + 1⟩
          s.nextId "cancelled").2.nextId, ?_⟩
      simp [bookAppointment, hcond, h2, hnc2]

/-- Witness for C2: booking the free Monday-09:00 slot in the empty store,
rebooking it, cancelling and rebooking again. -/
theorem booking_conflict_semantics_witness :
    (hasConflict Store.init.rows (reqA.date.getD "") (reqA.time.getD "") = true →
      bookAppointment Store.init reqA = (.conflictError, Store.init)) ∧
    (hasConflict Store.init.rows (reqA.date.getD "") (reqA.time.getD "") = false →
      (bookAppointment Store.init reqA).1 = .created Store.init.nextId ∧
      (bookAppointment (bookAppointment Store.init reqA).2 reqA).1 = .conflictError ∧
      (bookAppointment (bookAppointment Store.init reqA).2 reqA).2 =
        (bookAppointment Store.init reqA).2 ∧
      ∃ j, (bookAppointment
              (updateStatus (bookAppointment Store.init reqA).2 Store.init.nextId
                "cancelled").2 reqA).1 = .created j) :=
  booking_conflict_semantics Store.init reqA (by decide) (by decide)

/-- C4: whenever `GET /api/slots/:date` answers, `availableSlots` is
`allSlots` minus the booked times with order preserved (hence a subsequence
of `allSlots`), while `bookedSlots` is exactly the store's non-cancelled
times for the date, not intersected with the grid; a booked time outside
the grid therefore shows up in `bookedSlots` and never in
`availableSlots`. -/
theorem availability_partition (today : Nat × Nat × Nat) (rows : List Appointment)
    (date : String) (allS booked avail : List String)
    (h : getSlots today rows date = .ok allS booked avail) :
    allS = generateTimeSlots CLINIC_CONFIG date ∧
    booked = bookedTimesOf rows date ∧
    avail = allS.filter (fun t => !booked.contains t) ∧
    avail.Sublist allS ∧
    (∀ t ∈ booked, t ∉ avail) ∧
    (∀ t ∈ booked, t ∉ allS → t ∈ booked ∧ t ∉ avail) := by
  unfold getSlots at h
  split at h
  · exact absurd h (by simp)
  · split at h
    · exact absurd h (by simp)
    · simp only [SlotsResult.ok.injEq] at h
      obtain ⟨h1, h2, h3⟩ := h
      subst h1
      subst h2
      subst h3
      refine ⟨rfl, rfl, rfl, List.filter_sublist _, ?_, ?_⟩
      · intro t ht hmem
        have := List.of_mem_filter hmem
        simp at this
        exact this ht
      · intro t ht hnall
        refine ⟨ht, fun hmem => hnall ?_⟩
        exact (List.filter_sublist _).subset hmem

/-- Witness for C4: a stale `08:15` booking on Monday 2024-01-01 is
reported among the booked slots but the available slots are the untouched
16-slot grid. -/
theorem availability_partition_witness :
    mondayGrid = generateTimeSlots CLINIC_CONFIG "2024-01-01" ∧
    ["08:15"] = bookedTimesOf [apptOffGrid] "2024-01-01" ∧
    mondayGrid = mondayGrid.filter (fun t => !(["08:15"].contains t)) ∧
    List.Sublist mondayGrid mondayGrid ∧
    (∀ t ∈ (["08:15"] : List String), t ∉ mondayGrid) ∧
    (∀ t ∈ (["08:15"] : List String), t ∉ mondayGrid →
      t ∈ (["08:15"] : List String) ∧ t ∉ mondayGrid) :=
  availability_partition (2024, 1, 1) [apptOffGrid] "2024-01-01"
    mondayGrid ["08:15"] mondayGrid (by decide)

/-- C8: `GET /api/slots/:date` rejects a date that fails the
`YYYY-MM-DD` pattern with 400, rejects a well-formed date strictly before
the current date with 400, and does not reject the current date itself. -/
theorem slots_date_checks (today : Nat × Nat × Nat) (rows : List Appointment)
    (date : String) :
    (validDateFormat date = false → getSlots today rows date = .invalidFormat) ∧
    (validDateFormat date = true → dateLt (parseDateYMD date) today = true →
      getSlots today rows date = .pastDate) ∧
    (validDateFormat date = true → parseDateYMD date = today →
      ∃ a b c, getSlots today rows date = .ok a b c) := by
  refine ⟨?_, ?_, ?_⟩
  · intro h
    simp [getSlots, h]
  · intro h1 h2
    simp [getSlots, h1, h2]
  · intro h1 h2
    have hlt : dateLt (parseDateYMD date) today = false := by
      rw [h2]
      simp [dateLt]
    refine ⟨generateTimeSlots CLINIC_CONFIG date, bookedTimesOf rows date,
      (generateTimeSlots CLINIC_CONFIG date).filter
        (fun t => !(bookedTimesOf rows date).contains t), ?_⟩
    simp [getSlots, h1, hlt]

/-- Witness for C8: a malformed date, a past date, and the same-day date
on 2024-01-01. -/
theorem slots_date_checks_witness :
    getSlots (2024, 1, 1) [] "2024-1-1" = .invalidFormat ∧
    getSlots (2024, 1, 1) [] "2023-12-31" = .pastDate ∧
    ∃ a b c, getSlots (2024, 1, 1) [] "2024-01-01" = .ok a b c :=
  ⟨(slots_date_checks (2024, 1, 1) [] "2024-1-1").1 (by decide),
   (slots_date_checks (2024, 1, 1) [] "2023-12-31").2.1 (by decide) (by decide),
   (slots_date_checks (2024, 1, 1) [] "2024-01-01").2.2 (by decide) (by decide)⟩

/-- Witness for C10: id 7 is absent from the one-row store. -/
theorem admin_missing_id_succeeds_witness :
    updateStatus ⟨[apptP1], 2⟩ 7 "completed" = (.success, ⟨[apptP1], 2⟩) ∧
    deleteAppointment ⟨[apptP1], 2⟩ 7 = ⟨[apptP1], 2⟩ :=
  admin_missing_id_succeeds ⟨[apptP1], 2⟩ 7 "completed" (by decide) (by decide)


/-- C5 counterexample: the booking endpoint performs no time-format check,
so a request with time `"99:99"` succeeds and the store then holds an
appointment whose time is not an `HH:MM` slot of the clinic's granularity. -/
theorem booking_stores_unaligned_time :
    (bookAppointment Store.init reqBadTime).1 = .created 1 ∧
    ∃ a ∈ (bookAppointment Store.init reqBadTime).2.rows,
      a.time = "99:99" ∧ ¬specAlignedTime CLINIC_CONFIG a.time := by
  refine ⟨by decide, insertedRow Store.init reqBadTime, ?_, by decide, by decide⟩
  decide

/-- C5 amended: a stored time is whatever string the request carried, so
slot alignment holds after a booking exactly when it held before and the
request's own time was aligned. -/
theorem booking_time_alignment_conditional (s : Store) (r : BookingRequest)
    (hst : ∀ a ∈ s.rows, specAlignedTime CLINIC_CONFIG a.time)
    (hr : specAlignedTime CLINIC_CONFIG (r.time.getD "")) :
    ∀ a ∈ (bookAppointment s r).2.rows, specAlignedTime CLINIC_CONFIG a.time := by
  intro a ha
  rcases bookAppointment_rows_cases s r with hc | ⟨hc, _⟩ <;> rw [hc] at ha
  · exact hst a ha
  · rcases List.mem_cons.mp ha with rfl | hmem
    · exact hr
    · exact hst a hmem

/-- Witness for the amended C5: booking the aligned `09:00` request into
the empty store leaves the inserted row's time aligned. -/
theorem booking_time_alignment_conditional_witness :
    specAlignedTime CLINIC_CONFIG (insertedRow Store.init reqA).time :=
  booking_time_alignment_conditional Store.init reqA
    (by intro a ha; simp [Store.init] at ha) (by decide)
    (insertedRow Store.init reqA) (by decide)

/-- C1 counterexample: book `09:00`, cancel it by `PATCH`, book the freed
slot again, then `PATCH` the first appointment back to `'confirmed'`: the
resulting store is reachable yet holds two non-cancelled appointments at
the same `(date, time)`. -/
theorem slot_invariant_breakable :
    Reachable doubleBookedStore ∧ ¬slotInvariant doubleBookedStore.rows := by
  constructor
  · exact Reachable.patch _ 1 "confirmed"
      (Reachable.book _ reqB (Reachable.patch _ 1 "cancelled"
        (Reachable.book _ reqA Reachable.init)))
  · intro hinv
    have h2 : countAt doubleBookedStore.rows "2024-01-01" "09:00" = 2 := by decide
    have h1 := hinv "2024-01-01" "09:00"
    omega

/-- C1 amended: along any operation sequence in which no status update
moves a cancelled appointment back to a non-cancelled status, every
reachable store has at most one non-cancelled appointment per
`(date, time)`; booking enforces the invariant, deletion and cancellation
preserve it. -/
theorem safe_reachable_slot_invariant (s : Store) (h : SafeReachable s) :
    slotInvariant s.rows := by
  induction h with
  | init =>
    intro d t
    simp [Store.init, countAt]
  | book s r _ ih =>
    intro d t
    rcases bookAppointment_rows_cases s r with hc | ⟨hc, hnc⟩ <;> rw [hc]
    · exact ih d t
    · by_cases hm : ((insertedRow s r).date == d && (insertedRow s r).time == t &&
          (insertedRow s r).status != "cancelled") = true
      · rw [countAt_cons_pos _ _ _ _ hm]
        have hdt : (insertedRow s r).date = d ∧ (insertedRow s r).time = t := by
          simp only [Bool.and_eq_true, beq_iff_eq] at hm
          exact ⟨hm.1.1, hm.1.2⟩
        have h0 : countAt s.rows d t = 0 := by
          rw [← hdt.1, ← hdt.2]
          exact countAt_eq_zero_of_not_conflict s.rows _ _ hnc
        omega
      · rw [countAt_cons_neg _ _ _ _ (by simpa using hm)]
        exact ih d t
  | patch s i st _ hside ih =>
    intro d t
    rcases updateStatus_rows_cases s i st with hc | hc <;> rw [hc]
    · exact ih d t
    · have hle := length_filter_map_le
        (fun a => if a.id == i then { a with status := st } else a)
        (fun a => a.date == d && a.time == t && a.status != "cancelled") s.rows ?_
      · exact le_trans hle (ih d t)
      · intro a ha hp
        by_cases hid : (a.id == i) = true
        · simp only [hid, if_true] at hp
          simp only [Bool.and_eq_true, beq_iff_eq, bne_iff_ne, ne_eq] at hp ⊢
          rcases hside with rfl | hns
          · exact absurd rfl hp.2
          · exact ⟨hp.1, hns a ha (by simpa using hid)⟩
        · have hb : (a.id == i) = false := by simpa using hid
          simp only [hb, Bool.false_eq_true, if_false] at hp
          exact hp
  | del s i _ ih =>
    intro d t
    have hsub : ((s.rows.filter fun a => a.id != i).filter
        (fun a => a.date == d && a.time == t && a.status != "cancelled")).Sublist
        (s.rows.filter fun a => a.date == d && a.time == t && a.status != "cancelled") :=
      (List.filter_sublist _).filter _
    exact le_trans hsub.length_le (ih d t)

/-- Witness for the amended C1: the store holding one booked appointment is
safely reachable and satisfies the invariant. -/
theorem safe_reachable_slot_invariant_witness :
    slotInvariant (bookAppointment Store.init reqA).2.rows :=
  safe_reachable_slot_invariant _ (SafeReachable.book Store.init reqA SafeReachable.init)

/-- C6 counterexample: two appointments sharing an e-mail but recorded with
different phone numbers produce two roster rows for that one e-mail, since
the query groups by `(email, first_name, last_name, phone)`. -/
theorem patients_roster_email_not_unique :
    ((patientsQuery [apptP1, apptP2]).map PatientSummary.email) =
      ["ann@example.com", "ann@example.com"] ∧
    ¬((patientsQuery [apptP1, apptP2]).map PatientSummary.email).Nodup := by
  constructor
  · decide
  · decide

/-- C6 amended: the roster has exactly one row per distinct
`(email, first name, last name, phone)` tuple, carrying that group's visit
count and most recent visit date, ordered by most recent visit
descending. -/
theorem patients_roster_grouping (rows : List Appointment) :
    ((patientsQuery rows).map sumKey).Perm ((rows.map rowKey).dedup) ∧
    ((rows.map rowKey).dedup).Nodup ∧
    (∀ p ∈ patientsQuery rows,
      p.totalAppointments = (rows.filter fun a => rowKey a == sumKey p).length ∧
      p.lastVisit = maxDateOf (rows.filter fun a => rowKey a == sumKey p)) ∧
    (patientsQuery rows).Sorted byLastVisitDesc := by
  haveI : IsTotal PatientSummary byLastVisitDesc :=
    ⟨fun p q => charListLe_total q.lastVisit.toList p.lastVisit.toList⟩
  haveI : IsTrans PatientSummary byLastVisitDesc :=
    ⟨fun p q r h1 h2 => charListLe_trans r.lastVisit.toList q.lastVisit.toList
      p.lastVisit.toList h2 h1⟩
  have hkey : ∀ k, sumKey (summaryFor rows k) = k := by
    rintro ⟨a, b, c, d⟩
    rfl
  refine ⟨?_, List.nodup_dedup _, ?_, ?_⟩
  · have hperm := (List.perm_insertionSort byLastVisitDesc
      (((rows.map rowKey).dedup).map (summaryFor rows))).map sumKey
    rw [List.map_map] at hperm
    have hcomp : ((rows.map rowKey).dedup).map (sumKey ∘ summaryFor rows) =
        ((rows.map rowKey).dedup).map (fun k => k) := by
      apply List.map_congr_left
      intro k _
      exact hkey k
    rw [hcomp, List.map_id'] at hperm
    exact hperm
  · intro p hp
    unfold patientsQuery at hp
    rw [List.mem_insertionSort, List.mem_map] at hp
    obtain ⟨k, _, rfl⟩ := hp
    rw [hkey]
    exact ⟨rfl, rfl⟩
  · exact List.sorted_insertionSort byLastVisitDesc _

/-- Witness for the amended C6: the grouping property at a one-row store. -/
theorem patients_roster_grouping_witness :
    ((patientsQuery [apptP1]).map sumKey).Perm (([apptP1].map rowKey).dedup) ∧
    (([apptP1].map rowKey).dedup).Nodup ∧
    (∀ p ∈ patientsQuery [apptP1],
      p.totalAppointments = ([apptP1].filter fun a => rowKey a == sumKey p).length ∧
      p.lastVisit = maxDateOf ([apptP1].filter fun a => rowKey a == sumKey p)) ∧
    (patientsQuery [apptP1]).Sorted byLastVisitDesc :=
  patients_roster_grouping [apptP1]

end BrightSmile
